import Mathlib

/-!
Shallow embedding of the netscan scanning pipeline (Rust sources under
`src/rust_backend/src/`) and proofs about it.

Modelling conventions:
* Rust `String`/`&str` values are modelled as `List Char` (`Str` below);
  Rust machine integers are modelled as `Nat` with explicit `% 2^w`
  wherever overflow can occur (release-profile wrapping semantics).
* Network I/O is modelled by passing an explicit environment describing
  what the remote host answers to each kind of probe; the scanner
  functions are then pure functions of that environment, translated
  arm-by-arm from the source.
* Fallible Rust functions returning `Result` are modelled with `Except`
  (carrying the exact error message strings of the source), `Option`
  for `Option`.
-/

namespace NetScan


/-- Rust strings are modelled as lists of characters. -/
abbrev Str := List Char

/-- Embed a Lean string literal as a `Str`. -/
def str (s : String) : Str := s.toList

/-- Decimal digit character: `0 ↦ '0'`, …, `9 ↦ '9'`. -/
def dChar (d : Nat) : Char := Char.ofNat (48 + d)

/-- Numeric value of a decimal digit character. -/
def dVal (c : Char) : Nat := c.toNat - 48

/-- Little-endian base-10 digits, computed with explicit fuel so that
the definition is structurally recursive (and kernel-reducible). -/
def digitsAux : Nat → Nat → List Nat
  | 0, _ => []
  | _ + 1, 0 => []
  | fuel + 1, n + 1 => (n + 1) % 10 :: digitsAux fuel ((n + 1) / 10)

/-- Decimal representation of a natural number, most significant digit
first — the model of Rust's `format!("{}", n)` for unsigned integers. -/
def natChars (n : Nat) : Str :=
  if n = 0 then [dChar 0] else (digitsAux n n).reverse.map dChar

/-- Big-endian value of a digit-character string. -/
def charsVal (s : Str) : Nat := s.foldl (fun a c => 10 * a + dVal c) 0

/-- Digits-only unsigned parse body: nonempty all-digit strings only. -/
def parseNatAll (s : Str) : Option Nat :=
  if s ≠ [] ∧ s.all Char.isDigit then some (charsVal s) else none

/-- Model of Rust `str::parse` for unsigned integers before the width
check: an optional leading `'+'` followed by at least one digit. -/
def parseUnsigned (s : Str) : Option Nat :=
  match s with
  | [] => none
  | c :: rest => if c = '+' then parseNatAll rest else parseNatAll (c :: rest)

/-- Model of `str::parse::<u16>`; values ≥ 2^16 are an overflow error. -/
def parseU16 (s : Str) : Option Nat :=
  (parseUnsigned s).bind fun v => if v < 65536 then some v else none

/-- Model of `str::parse::<u32>`; values ≥ 2^32 are an overflow error. -/
def parseU32 (s : Str) : Option Nat :=
  (parseUnsigned s).bind fun v => if v < 4294967296 then some v else none

/-- Model of Rust `str::split(sep)`: splits at every separator, keeping
empty pieces (`"" ↦ [""]`, `"a,,b" ↦ ["a","","b"]`). -/
def splitOnChar (sep : Char) : Str → List Str
  | [] => [[]]
  | c :: rest =>
    if c = sep then [] :: splitOnChar sep rest
    else
      match splitOnChar sep rest with
      | t :: ts => (c :: t) :: ts
      | [] => [[c]]

/-- Model of Rust `str::split_once(sep)`: split at the first separator. -/
def splitOnceChar (sep : Char) : Str → Option (Str × Str)
  | [] => none
  | c :: rest =>
    if c = sep then some ([], rest)
    else (splitOnceChar sep rest).map fun p => (c :: p.1, p.2)

/-- Model of `Vec<String>::join(sep)` for a one-character separator. -/
def joinChar (sep : Char) : List Str → Str
  | [] => []
  | [t] => t
  | t :: ts => t ++ sep :: joinChar sep ts

/-- Model of `Vec<String>::join(sep)` for a string separator. -/
def joinStr (sep : Str) : List Str → Str
  | [] => []
  | [t] => t
  | t :: ts => t ++ sep ++ joinStr sep ts

/-- Model of Rust `str::trim`. -/
def trimStr (s : Str) : Str :=
  ((s.dropWhile Char.isWhitespace).reverse.dropWhile Char.isWhitespace).reverse

/-- Substring test, the model of Rust `str::contains`. -/
def containsSub (hay needle : Str) : Bool := decide (needle <:+: hay)

/-- The model of Rust `str::starts_with`. -/
def startsWithStr (s pre : Str) : Bool := decide (pre <+: s)

/-!
### Target expander (src/rust_backend/src/scanners/pingsweep.rs, `parse_subnet`)

IPv4 addresses are modelled as `Nat` values below 2^32 (the value of the
underlying `u32`).  `u32` arithmetic wraps (`% 2^32`), matching the
release-profile semantics of the source's unchecked `+` and `pow`.
-/

/-- Model of `std::net::Ipv4Addr`'s octet parser: digits only, no sign,
no leading zeros, value ≤ 255. -/
def parseOctet (s : Str) : Option Nat :=
  if s = [] then none
  else if ¬ s.all Char.isDigit then none
  else if 1 < s.length ∧ s.head? = some '0' then none
  else if charsVal s ≤ 255 then some (charsVal s) else none

/-- Model of `Ipv4Addr::from_str` composed with `u32::from`: a dotted
quad yielding the address's `u32` value. -/
def ipv4FromStr (s : Str) : Option Nat :=
  match (splitOnChar '.' s).map parseOctet with
  | [some a, some b, some c, some d] => some (((a * 256 + b) * 256 + c) * 256 + d)
  | _ => none

/-- Translation of `parse_subnet` (pingsweep.rs lines 142-163): split on
`'/'`, parse base address and prefix, reject prefixes above 32, then
enumerate `2u32.pow(32 - prefix)` addresses `base + i`.  Both the `pow`
and the `+` are unchecked `u32` operations, modelled with `% 2^32`. -/
def parse_subnet (s : Str) : Except Str (List Nat) :=
  match splitOnChar '/' s with
  | [ipPart, prefixPart] =>
    match ipv4FromStr ipPart with
    | none => .error (str "Invalid IP address.")
    | some base =>
      match parseU32 prefixPart with
      | none => .error (str "Invalid prefix.")
      | some prfx =>
        if prfx > 32 then .error (str "Invalid prefix.")
        else
          .ok ((List.range (2 ^ (32 - prfx) % 4294967296)).map
            fun i => (base + i) % 4294967296)
  | _ => .error (str "Invalid subnet format. Use CIDR notation (e.g., 192.168.1.0/24).")

/-!
### Ping sweep (src/rust_backend/src/scanners/pingsweep.rs, `ping_sweep`)

`is_host_alive` performs raw ICMP I/O; it is modelled as an oracle
`alive : Nat → Except Str Bool` giving, per target address, the value
the source function returns (`Ok(true)` live, `Ok(false)` no reply
within the timeout, `Err(msg)` channel/send/receive error).  The tasks
are joined in spawn order, so the concurrent loop appends results in
input order, which the fold below mirrors.
-/

/-- Mirror of the `PingSweepResult` struct. -/
structure PingSweepResult where
  live_hosts : List Nat
  not_alive_hosts : List Nat
  errors : List (Nat × Str)
deriving DecidableEq

/-- One join-loop iteration of `ping_sweep`: classify a target by the
outcome of `is_host_alive`. -/
def pingStep (alive : Nat → Except Str Bool) (r : PingSweepResult) (ip : Nat) :
    PingSweepResult :=
  match alive ip with
  | .ok true => { r with live_hosts := r.live_hosts ++ [ip] }
  | .ok false => { r with not_alive_hosts := r.not_alive_hosts ++ [ip] }
  | .error e => { r with errors := r.errors ++ [(ip, e)] }

/-- Translation of `ping_sweep` (pingsweep.rs lines 113-139). -/
def ping_sweep (alive : Nat → Except Str Bool) (subnet : Str) :
    Except Str PingSweepResult :=
  match parse_subnet subnet with
  | .error e => .error e
  | .ok ips => .ok (ips.foldl (pingStep alive) ⟨[], [], []⟩)

/-- Bool classifiers for the three `is_host_alive` outcomes. -/
def isLiveR (x : Except Str Bool) : Bool :=
  match x with | .ok true => true | _ => false

def isNotAliveR (x : Except Str Bool) : Bool :=
  match x with | .ok false => true | _ => false

def errOfR (x : Except Str Bool) : Option Str :=
  match x with | .error e => some e | _ => none

/-!
### TCP / UDP port scans (src/rust_backend/src/scanners/tcpscan.rs,
udpscan.rs)

Each probe's network interaction is an oracle value: for TCP, what
`timeout(CONNECTION_TIMEOUT, TcpStream::connect(addr))` produced; for
UDP, how the bind/connect/send/recv sequence inside the timeout ended.
The spawned tasks are joined in spawn (= port) order and never panic in
the model, so the collection loop is a fold over the port list.
-/

/-- Dotted-quad rendering of an IPv4 address value, the model of
`Ipv4Addr`'s `Display`. -/
def ipv4ToStr (ip : Nat) : Str :=
  natChars (ip / 16777216 % 256) ++ '.' :: natChars (ip / 65536 % 256) ++
    '.' :: natChars (ip / 256 % 256) ++ '.' :: natChars (ip % 256)

/-- Outcome of one bounded TCP connect attempt. -/
inductive TcpConnectOutcome where
  | success
  | failure (msg : Str)
  | timeout
deriving DecidableEq

/-- Mirror of the `TcpScanResult` struct. -/
structure TcpScanResult where
  open_ports : List (Nat × Nat)
  errors : List (Nat × Str)
deriving DecidableEq

/-- The task body of `scan_ports` (tcpscan.rs lines 55-63): success is
`Ok((ip, port))`, a connect error or timeout is `Err(message)`. -/
def tcpProbe (out : TcpConnectOutcome) (ip port : Nat) : Except Str (Nat × Nat) :=
  match out with
  | .success => .ok (ip, port)
  | .failure e =>
    .error (str "Error connecting to " ++ ipv4ToStr ip ++ ':' :: natChars port ++
      str " - " ++ e)
  | .timeout =>
    .error (str "Timeout connecting to " ++ ipv4ToStr ip ++ ':' :: natChars port)

/-- Translation of `scan_ports` (tcpscan.rs lines 48-76): probe every
port, record `Ok` task results as open ports and `Err` ones as errors. -/
def scan_ports (net : Nat → Nat → TcpConnectOutcome) (ip : Nat)
    (ports : List Nat) : TcpScanResult :=
  ports.foldl (fun r port =>
    match tcpProbe (net ip port) ip port with
    | .ok v => { r with open_ports := r.open_ports ++ [v] }
    | .error e => { r with errors := r.errors ++ [(ip, e)] }) ⟨[], []⟩

/-- Outcome of one UDP probe's bind/connect/send/recv sequence. -/
inductive UdpProbeOutcome where
  | reply
  | noResponse
  | bindErr (msg : Str)
  | connectErr (msg : Str)
  | sendErr (msg : Str)
  | timeout
deriving DecidableEq

/-- Mirror of the `UdpScanResult` struct. -/
structure UdpScanResult where
  open_ports : List (Nat × Nat)
  errors : List (Nat × Str)
deriving DecidableEq

/-- The inner `async` block of `scan_udp_ports` under its timeout:
`none` models the outer timeout firing, otherwise the block's
`Result<(), String>` (a received datagram is `Ok(())`; a recv error is
`Err("No response")`; bind/connect/send errors carry their messages). -/
def udpInner (o : UdpProbeOutcome) : Option (Except Str Unit) :=
  match o with
  | .reply => some (.ok ())
  | .noResponse => some (.error (str "No response"))
  | .bindErr m => some (.error m)
  | .connectErr m => some (.error m)
  | .sendErr m => some (.error m)
  | .timeout => none

/-- The task body of `scan_udp_ports` (udpscan.rs lines 59-104). -/
def udpProbe (o : UdpProbeOutcome) (ip port : Nat) : Except Str (Nat × Nat) :=
  match udpInner o with
  | some (.ok _) => .ok (ip, port)
  | some (.error e) =>
    .error (str "Error on " ++ ipv4ToStr ip ++ ':' :: natChars port ++
      str " - " ++ e)
  | none => .error (str "Timeout on " ++ ipv4ToStr ip ++ ':' :: natChars port)

/-- Translation of `scan_udp_ports` (udpscan.rs lines 48-117). -/
def scan_udp_ports (net : Nat → Nat → UdpProbeOutcome) (ip : Nat)
    (ports : List Nat) : UdpScanResult :=
  ports.foldl (fun r port =>
    match udpProbe (net ip port) ip port with
    | .ok v => { r with open_ports := r.open_ports ++ [v] }
    | .error e => { r with errors := r.errors ++ [(ip, e)] }) ⟨[], []⟩

/-- Error-message selector for a failed TCP probe (`none` on success). -/
def tcpErrOf (o : TcpConnectOutcome) (ip port : Nat) : Option Str :=
  match tcpProbe o ip port with
  | .ok _ => none
  | .error e => some e

/-- Error-message selector for a failed UDP probe (`none` on a reply). -/
def udpErrOf (o : UdpProbeOutcome) (ip port : Nat) : Option Str :=
  match udpProbe o ip port with
  | .ok _ => none
  | .error e => some e

/-!
### CLI port list (src/rust_backend/src/main.rs `parse_ports`,
src/rust_backend/src/utils/prettyprint.rs `format_port_ranges`, and the
TCP/UDP stage port range in `main`)
-/

/-- Consecutive-duplicate removal, the model of `Vec::dedup`. -/
def dedupAdj : List Nat → List Nat
  | [] => []
  | [a] => [a]
  | a :: b :: rest =>
    if a = b then dedupAdj (b :: rest) else a :: dedupAdj (b :: rest)

/-- One comma-separated token of `parse_ports` (main.rs lines 113-121):
a token containing `-` is split once and, when both trimmed halves parse
as `u16`, expands to the inclusive range `start..=end`; otherwise the
trimmed token itself must parse as a single `u16`; unparsable tokens
contribute nothing. -/
def parsePart (part : Str) : List Nat :=
  match splitOnceChar '-' part with
  | some (a, b) =>
    match parseU16 (trimStr a), parseU16 (trimStr b) with
    | some s, some e => List.range' s (e + 1 - s)
    | _, _ => []
  | none =>
    match parseU16 (trimStr part) with
    | some p => [p]
    | none => []

/-- Translation of `parse_ports` (main.rs lines 111-125).  `sort_unstable`
on `u16` is modelled by insertion sort: on a type with no distinct equal
elements every correct sort yields the same list. -/
def parse_ports (s : Str) : List Nat :=
  dedupAdj (List.insertionSort (· ≤ ·) ((splitOnChar ',' s).flatMap parsePart))

/-- Token for a completed run `start..end` in `format_port_ranges`:
a bare number when the run is a single port, `start-end` otherwise. -/
def rangeToken (s e : Nat) : Str :=
  if s = e then natChars s else natChars s ++ '-' :: natChars e

/-- The accumulator loop of `format_port_ranges` (prettyprint.rs lines
53-75): `start`/`e` delimit the current run of consecutive ports. -/
def fprTokens (start e : Nat) : List Nat → List Str
  | [] => [rangeToken start e]
  | p :: rest =>
    if p = e + 1 then fprTokens start p rest
    else rangeToken start e :: fprTokens p p rest

/-- Translation of `format_port_ranges` (prettyprint.rs lines 49-77). -/
def format_port_ranges (ports : List Nat) : Str :=
  match ports with
  | [] => []
  | p :: rest => joinChar ',' (fprTokens p p rest)

/-- The port range `min_port..(max_port + 1)` that `main` hands to the
TCP and UDP scan stages (main.rs lines 223-244), built from the first
and last element of the (sorted) parsed port list; `max_port + 1` is a
`u16` addition and wraps at 2^16. -/
def driver_scan_range (ports : List Nat) : List Nat :=
  match ports with
  | [] => []
  | p :: rest => List.range' p ((List.getLastD rest p + 1) % 65536 - p)

/-!
### Service detection
(src/rust_backend/src/scanners/service_detection.rs, async CLI system)

The listener behind the probed (ip, port) is modelled by `HostNet`: what
each fresh connection/read inside the per-protocol arms observes.  Reads
that error or time out are `none`; a successful read of `n` bytes is
`some` of the (lossily decoded) text, so an empty read is `some []`.
-/

/-- Remote behaviour observed by the probe arms of `detect_service`. -/
structure HostNet where
  /-- `TcpStream::connect` succeeds within its timeout. -/
  connectOk : Bool
  /-- First read on a fresh connection with nothing sent (the SSH / FTP /
  SMTP / POP3 / IMAP / Telnet arms and the generic banner read). -/
  firstRead : Option Str
  /-- The SSH arm's second read, after it writes one `\n`. -/
  sshSecondRead : Option Str
  /-- Read after sending `HEAD / HTTP/1.0\r\n\r\n` (HTTP arm). -/
  httpReply : Option Str
  /-- TLS connector creation and handshake succeed (HTTPS arm). -/
  tlsOk : Bool
  /-- Read over the established TLS stream (HTTPS arm). -/
  tlsRead : Option Str
  /-- Local `UdpSocket::bind` succeeds (DNS arm). -/
  udpBindOk : Bool
  /-- Datagram received in reply to the DNS A-query, as raw bytes. -/
  dnsReply : Option (List Nat)
deriving DecidableEq

/-- Mirror of the `Protocol` enum. -/
inductive Protocol where
  | Ssh | Ftp | Smtp | Http | Https | Dns | Pop3 | Imap | Telnet
deriving DecidableEq

/-- Mirror of the `ServiceDetectionResult` struct. -/
structure ServiceDetectionResult where
  port : Nat
  service : Option Str
  error : Option Str
  protocol_failures : List Str
deriving DecidableEq

/-- Outcome of one protocol arm of the `for proto in protocols` loop:
either an early `return` with the identified service, or fall-through
with the strings the arm pushed onto `errors` and `protocol_failures`. -/
inductive ArmOutcome where
  | identified (name : Str)
  | failed (errs : List Str) (fails : List Str)
deriving DecidableEq

/-- The SSH arm (service_detection.rs lines 145-196): banner on first
read, else newline then second read; on connect failure push an error;
on a non-SSH banner push nothing — the `protocol_failures.push("SSH")`
in the source is commented out. -/
def sshArm (env : HostNet) : ArmOutcome :=
  if env.connectOk then
    if (match env.firstRead with
        | some b => startsWithStr b (str "SSH-")
        | none => false) then
      .identified (str "SSH")
    else if (match env.sshSecondRead with
        | some b => startsWithStr b (str "SSH-")
        | none => false) then
      .identified (str "SSH")
    else .failed [] []
  else .failed [str "SSH: connection timeout"] []

/-- Common shape of the FTP/SMTP/HTTP/POP3/IMAP/Telnet arms: one read
(`none` when the connect or the read failed), an accept predicate on the
banner, and on failure one `errors` entry plus one `protocol_failures`
entry. -/
def bannerArm (read : Option Str) (accept : Str → Bool) (name errMsg : Str) :
    ArmOutcome :=
  match read with
  | some b => if accept b then .identified name else .failed [errMsg] [name]
  | none => .failed [errMsg] [name]

/-- The DNS arm (lines 313-349): UDP bind, send the A-query, accept a
reply of at least two bytes starting `0x12 0x34`. -/
def dnsArm (env : HostNet) : ArmOutcome :=
  match (if env.udpBindOk then env.dnsReply else none) with
  | some (b0 :: b1 :: _) =>
    if b0 = 18 ∧ b1 = 52 then .identified (str "DNS")
    else .failed [str "DNS: no valid DNS response"] [str "DNS"]
  | _ => .failed [str "DNS: no valid DNS response"] [str "DNS"]

/-- One iteration of the protocol loop of `detect_service`, arm by arm
from the source's `match proto`. -/
def probeArm (env : HostNet) : Protocol → ArmOutcome
  | .Ssh => sshArm env
  | .Ftp =>
    bannerArm (if env.connectOk then env.firstRead else none)
      (fun b => containsSub b (str "FTP"))
      (str "FTP") (str "FTP: no valid FTP banner")
  | .Smtp =>
    bannerArm (if env.connectOk then env.firstRead else none)
      (fun b => containsSub b (str "SMTP") || containsSub b (str "ESMTP"))
      (str "SMTP") (str "SMTP: no valid SMTP banner")
  | .Http =>
    bannerArm (if env.connectOk then env.httpReply else none)
      (fun b => containsSub b (str "HTTP/1.0") || containsSub b (str "HTTP/1.1"))
      (str "HTTP") (str "HTTP: no valid HTTP response")
  | .Https =>
    bannerArm (if env.connectOk && env.tlsOk then env.tlsRead else none)
      (fun b => containsSub b (str "HTTP/1.1") || !(trimStr b).isEmpty)
      (str "HTTPS") (str "HTTPS: no valid TLS handshake")
  | .Dns => dnsArm env
  | .Pop3 =>
    bannerArm (if env.connectOk then env.firstRead else none)
      (fun b => startsWithStr b (str "+OK"))
      (str "POP3") (str "POP3: no valid POP3 banner")
  | .Imap =>
    bannerArm (if env.connectOk then env.firstRead else none)
      (fun b => startsWithStr b (str "* OK"))
      (str "IMAP") (str "IMAP: no valid IMAP banner")
  | .Telnet =>
    bannerArm (if env.connectOk then env.firstRead else none)
      (fun b => containsSub b (str "login") || containsSub b (str "Welcome"))
      (str "Telnet") (str "Telnet: no valid Telnet banner")

/-- The generic banner read (lines 429-447): fresh connect, plain read,
non-empty trimmed text wins. -/
def genericBanner (env : HostNet) : Option Str :=
  if env.connectOk then
    match env.firstRead with
    | some b => if trimStr b = [] then none else some (trimStr b)
    | none => none
  else none

/-- The final fallback (lines 449-461): "Unknown Service" with the
collected errors joined by `" | "` (or `None` if none were pushed). -/
def detectFallback (port : Nat) (errors fails : List Str) :
    ServiceDetectionResult :=
  ⟨port, some (str "Unknown Service"),
    if errors = [] then none else some (joinStr (str " | ") errors), fails⟩

/-- The protocol loop of `detect_service`, carrying the `errors` and
`protocol_failures` accumulators, followed by the generic banner read
and the fallback. -/
def detectLoop (env : HostNet) (port : Nat) :
    List Protocol → List Str → List Str → ServiceDetectionResult
  | [], errors, fails =>
    match genericBanner env with
    | some t => ⟨port, some (str "Banner: " ++ t), none, fails⟩
    | none => detectFallback port errors fails
  | proto :: rest, errors, fails =>
    match probeArm env proto with
    | .identified name => ⟨port, some name, none, fails⟩
    | .failed es fs => detectLoop env port rest (errors ++ es) (fails ++ fs)

/-- Translation of `detect_service` (service_detection.rs lines 127-461). -/
def detect_service (env : HostNet) (port : Nat) (protocols : List Protocol) :
    ServiceDetectionResult :=
  detectLoop env port protocols [] []

/-- Translation of `default_ports` (lines 110-112): `(0..=1024)`. -/
def default_ports : List Nat := List.range 1025

/-- Translation of `merged_ports` (lines 115-125): a `HashSet` seeded
with the defaults, user ports inserted, then sorted ascending.  The
hash set is a finite set, so the pipeline is modelled as duplicate
removal over defaults-then-user followed by an ascending sort, which
produces the same list as any iteration order followed by
`sort_unstable`. -/
def merged_ports (user_ports : Option (List Nat)) : List Nat :=
  List.insertionSort (· ≤ ·) (default_ports ++ user_ports.getD []).dedup

/-- Translation of `service_scan` (lines 465-492): one `detect_service`
per merged port.  `buffer_unordered` produces the same multiset of
results; the model keeps them in port order. -/
def service_scan (env : Nat → HostNet) (user_ports : Option (List Nat))
    (protocols : List Protocol) : List ServiceDetectionResult :=
  (merged_ports user_ports).map fun port => detect_service (env port) port protocols

/- ### Invariants of detect_service / service_scan -/

/-- Does the arm for `proto` identify the service in environment `env`? -/
def armIdentifies (env : HostNet) (proto : Protocol) : Bool :=
  match probeArm env proto with
  | .identified _ => true
  | .failed _ _ => false

/-- The display name each arm uses for `service` and `protocol_failures`. -/
def protoName : Protocol → Str
  | .Ssh => str "SSH"
  | .Ftp => str "FTP"
  | .Smtp => str "SMTP"
  | .Http => str "HTTP"
  | .Https => str "HTTPS"
  | .Dns => str "DNS"
  | .Pop3 => str "POP3"
  | .Imap => str "IMAP"
  | .Telnet => str "Telnet"

/-!
### Host fingerprinting (src/rust_backend/src/utils/fingerprinting.rs)

`fingerprint_host` takes only the target address; the network behaviour
each helper observes is the `FpEnv` oracle.  The ICMP reply TTL is part
of the environment so that (in)dependence on it can be stated — the
source never captures or reads it (`is_host_alive` returns only a bool
and `PingSweepResult` has no TTL field).
-/

/-- Remote behaviour observed by the fingerprinting helpers. -/
structure FpEnv where
  /-- TTL of the host's ICMP echo reply (captured nowhere by the code). -/
  icmpTtl : Option Nat
  /-- Bytes read from port 22 after connect (`none`: connect/read failed). -/
  sshRead : Option Str
  /-- Bytes read from port 80 after the `HEAD` request. -/
  httpRead : Option Str
  /-- SNMP sysDescr octet string, when the community-`public` GET works. -/
  snmpDescr : Option Str
  /-- Raw NetBIOS name-query reply datagram. -/
  netbiosReply : Option (List Nat)
  /-- The local interface MAC as text, from `get_mac_address()`. -/
  localMac : Option Str
  /-- Size of the datagram the traceroute-style UDP probe received. -/
  stackReplyLen : Option Nat
deriving DecidableEq

/-- Mirror of the `HostFingerprintResult` struct. -/
structure HostFingerprintResult where
  ip : Nat
  os : Option Str
  vendor : Option Str
  serial : Option Str
  details : Option Str
deriving DecidableEq

/-- ASCII byte-to-char decoding (model of `String::from_utf8_lossy` on
the ASCII bytes these probes handle). -/
def byteChar (b : Nat) : Char := Char.ofNat b

/-- `fingerprint_ssh` (fingerprinting.rs lines 29-43): accept a banner
starting `SSH-`, trimmed. -/
def fingerprint_ssh (env : FpEnv) : Option Str :=
  match env.sshRead with
  | some b => if startsWithStr b (str "SSH-") then some (trimStr b) else none
  | none => none

/-- `fingerprint_http` (lines 46-64): accept a response containing
`Server:` or `HTTP/`, trimmed. -/
def fingerprint_http (env : FpEnv) : Option Str :=
  match env.httpRead with
  | some b =>
    if containsSub b (str "Server:") || containsSub b (str "HTTP/") then
      some (trimStr b)
    else none
  | none => none

/-- `fingerprint_snmp` (lines 67-85): the sysDescr value, when any. -/
def fingerprint_snmp (env : FpEnv) : Option Str := env.snmpDescr

/-- `fingerprint_netbios` (lines 88-125): for a reply longer than 57
bytes, the text at bytes 57..min(72, n), trimmed. -/
def fingerprint_netbios (env : FpEnv) : Option Str :=
  match env.netbiosReply with
  | some bytes =>
    if 57 < bytes.length then
      some (trimStr (((bytes.drop 57).take (min 72 bytes.length - 57)).map byteChar))
    else none
  | none => none

/-- `fingerprint_mac_vendor` (lines 150-157): `MAC: ` plus the first 8
characters of the local MAC, `:` replaced by `-`, upper-cased. -/
def fingerprint_mac_vendor (env : FpEnv) : Option Str :=
  match env.localMac with
  | some mac =>
    some (str "MAC: " ++
      ((mac.take 8).map fun c => if c = ':' then '-' else c).map Char.toUpper)
  | none => none

/-- `fingerprint_tcpip_stack` (lines 128-147). -/
def fingerprint_tcpip_stack (env : FpEnv) : Option Str :=
  env.stackReplyLen.map fun n => str "UDP response size: " ++ natChars n

/-- First (char) index at which `needle` occurs, the model of
`str::find` with a string pattern. -/
def findSubIdx (needle : Str) : Str → Option Nat
  | [] => if needle = [] then some 0 else none
  | c :: rest =>
    if needle.isPrefixOf (c :: rest) then some 0
    else (findSubIdx needle rest).map (· + 1)

/-- Fuelled worker for `split_whitespace`. -/
def splitWsAux : Nat → Str → List Str
  | 0, _ => []
  | fuel + 1, s =>
    match s.dropWhile Char.isWhitespace with
    | [] => []
    | c :: rest =>
      (c :: rest).takeWhile (fun x => !x.isWhitespace) ::
        splitWsAux fuel ((c :: rest).dropWhile fun x => !x.isWhitespace)

/-- Model of `str::split_whitespace`: maximal non-whitespace runs. -/
def splitWhitespaceStr (s : Str) : List Str := splitWsAux (s.length + 1) s

/-- The `os` extraction of `fingerprint_host` (lines 167-174): from the
first occurrence of `OpenSSH_` in the banner, the second whitespace
token (`.nth(1)`), defaulting to the empty string. -/
def osFromSshBanner (banner : Str) : Option Str :=
  match findSubIdx (str "OpenSSH_") banner with
  | some idx => some ((splitWhitespaceStr (banner.drop idx)).getD 1 [])
  | none => none

/-- SSH stage of `fingerprint_host` (lines 164-175). -/
def fpSshStep (env : FpEnv) (r : HostFingerprintResult) : HostFingerprintResult :=
  match fingerprint_ssh env with
  | some banner =>
    { r with details := some (str "SSH: " ++ banner), os := osFromSshBanner banner }
  | none => r

/-- HTTP stage (lines 177-183): append to `details`, creating it empty
first when absent (so the appended text keeps its leading newline). -/
def fpHttpStep (env : FpEnv) (r : HostFingerprintResult) : HostFingerprintResult :=
  match fingerprint_http env with
  | some b => { r with details := some ((r.details.getD []) ++ str "\nHTTP: " ++ b) }
  | none => r

/-- SNMP stage (lines 186-191). -/
def fpSnmpStep (env : FpEnv) (r : HostFingerprintResult) : HostFingerprintResult :=
  match fingerprint_snmp env with
  | some d => { r with details := some ((r.details.getD []) ++ str "\nSNMP: " ++ d) }
  | none => r

/-- NetBIOS stage (lines 193-199). -/
def fpNetbiosStep (env : FpEnv) (r : HostFingerprintResult) : HostFingerprintResult :=
  match fingerprint_netbios env with
  | some nb =>
    { r with details := some ((r.details.getD []) ++ str "\nNetBIOS: " ++ nb) }
  | none => r

/-- MAC-vendor stage (lines 201-204). -/
def fpMacStep (env : FpEnv) (r : HostFingerprintResult) : HostFingerprintResult :=
  match fingerprint_mac_vendor env with
  | some mac => { r with vendor := some mac }
  | none => r

/-- TCP/IP-stack stage (lines 206-212). -/
def fpStackStep (env : FpEnv) (r : HostFingerprintResult) : HostFingerprintResult :=
  match fingerprint_tcpip_stack env with
  | some st =>
    { r with details := some ((r.details.getD []) ++ str "\nTCP/IP: " ++ st) }
  | none => r

/-- Translation of `fingerprint_host` (fingerprinting.rs lines 161-215):
the six stages applied in source order to the fresh record. -/
def fingerprint_host (ip : Nat) (env : FpEnv) : HostFingerprintResult :=
  fpStackStep env (fpMacStep env (fpNetbiosStep env (fpSnmpStep env
    (fpHttpStep env (fpSshStep env ⟨ip, none, none, none, none⟩)))))

/- ### Basic facts about the numeral model -/

theorem digitsAux_spec : ∀ fuel n, n ≤ fuel → digitsAux fuel n = Nat.digits 10 n
  | 0, 0, _ => by simp [digitsAux]
  | _ + 1, 0, _ => by simp [digitsAux]
  | fuel + 1, n + 1, h => by
    rw [digitsAux, Nat.digits_def' (b := 10) (by norm_num) (Nat.succ_pos n)]
    rw [digitsAux_spec fuel ((n + 1) / 10)
      (by have := Nat.div_lt_self (Nat.succ_pos n) (by norm_num : 1 < 10); omega)]

theorem natChars_eq (n : Nat) :
    natChars n = if n = 0 then [dChar 0] else (Nat.digits 10 n).reverse.map dChar := by
  unfold natChars
  rw [digitsAux_spec n n le_rfl]

theorem dVal_dChar {d : Nat} (hd : d < 10) : dVal (dChar d) = d := by
  interval_cases d <;> rfl

theorem isDigit_dChar {d : Nat} (hd : d < 10) : (dChar d).isDigit = true := by
  interval_cases d <;> rfl

theorem mem_natChars_isDigit {n : Nat} {c : Char} (hc : c ∈ natChars n) :
    c.isDigit = true := by
  rw [natChars_eq] at hc
  split at hc
  · rw [List.mem_singleton] at hc
    subst hc
    exact isDigit_dChar (by norm_num)
  · rcases List.mem_map.mp hc with ⟨d, hd, rfl⟩
    exact isDigit_dChar (Nat.digits_lt_base (by norm_num) (List.mem_reverse.mp hd))

theorem foldl_step_shift (L : List Char) (a : Nat) :
    L.foldl (fun a c => 10 * a + dVal c) a
      = a * 10 ^ L.length + L.foldl (fun a c => 10 * a + dVal c) 0 := by
  induction L generalizing a with
  | nil => simp
  | cons c T ih =>
    simp only [List.foldl_cons, List.length_cons]
    rw [ih (10 * a + dVal c), ih (10 * 0 + dVal c)]
    ring

theorem charsVal_append_digit (s : Str) (c : Char) :
    charsVal (s ++ [c]) = 10 * charsVal s + dVal c := by
  unfold charsVal
  rw [List.foldl_append]
  simp

theorem charsVal_digits_reverse (L : List Nat) (hL : ∀ d ∈ L, d < 10) :
    charsVal ((L.map dChar).reverse) = Nat.ofDigits 10 L := by
  induction L with
  | nil => rfl
  | cons d T ih =>
    have hd : d < 10 := hL d (List.mem_cons_self d T)
    have hT : ∀ x ∈ T, x < 10 := fun x hx => hL x (List.mem_cons_of_mem d hx)
    simp only [List.map_cons, List.reverse_cons]
    rw [charsVal_append_digit, ih hT, dVal_dChar hd, Nat.ofDigits_cons]
    ring

theorem charsVal_natChars (n : Nat) : charsVal (natChars n) = n := by
  rw [natChars_eq]
  split
  · subst n; rfl
  · rw [List.map_reverse]
    rw [charsVal_digits_reverse _
      (fun d hd => Nat.digits_lt_base (by norm_num) hd)]
    exact Nat.ofDigits_digits 10 n

theorem natChars_ne_nil (n : Nat) : natChars n ≠ [] := by
  rw [natChars_eq]
  split
  · simp
  · intro h
    rw [List.map_eq_nil_iff, List.reverse_eq_nil_iff] at h
    exact Nat.digits_ne_nil_iff_ne_zero.mpr ‹¬ n = 0› h

theorem parseNatAll_natChars (n : Nat) : parseNatAll (natChars n) = some n := by
  unfold parseNatAll
  rw [if_pos]
  · rw [charsVal_natChars]
  · exact ⟨natChars_ne_nil n, List.all_eq_true.mpr fun c hc => mem_natChars_isDigit hc⟩

theorem natChars_head_digit (n : Nat) :
    ∃ c rest, natChars n = c :: rest ∧ c.isDigit = true := by
  rcases h : natChars n with _ | ⟨c, rest⟩
  · exact absurd h (natChars_ne_nil n)
  · exact ⟨c, rest, rfl, mem_natChars_isDigit (h ▸ List.mem_cons_self c rest)⟩

theorem parseUnsigned_cons (c : Char) (rest : Str) :
    parseUnsigned (c :: rest) =
      if c = '+' then parseNatAll rest else parseNatAll (c :: rest) := rfl

theorem parseUnsigned_natChars (n : Nat) : parseUnsigned (natChars n) = some n := by
  rcases natChars_head_digit n with ⟨c, rest, hEq, hDigit⟩
  rw [hEq, parseUnsigned_cons, if_neg, ← hEq, parseNatAll_natChars]
  intro hc
  subst hc
  simp [Char.isDigit] at hDigit

theorem parseU16_natChars {n : Nat} (hn : n < 65536) :
    parseU16 (natChars n) = some n := by
  unfold parseU16
  rw [parseUnsigned_natChars]
  simp [hn]

theorem parseU32_natChars {n : Nat} (hn : n < 4294967296) :
    parseU32 (natChars n) = some n := by
  unfold parseU32
  rw [parseUnsigned_natChars]
  simp [hn]

/- ### Facts about split / join / trim -/

theorem splitOnChar_cons (sep c : Char) (rest : Str) :
    splitOnChar sep (c :: rest) =
      if c = sep then [] :: splitOnChar sep rest
      else
        match splitOnChar sep rest with
        | t :: ts => (c :: t) :: ts
        | [] => [[c]] := rfl

theorem splitOnceChar_cons (sep c : Char) (rest : Str) :
    splitOnceChar sep (c :: rest) =
      if c = sep then some ([], rest)
      else (splitOnceChar sep rest).map fun p => (c :: p.1, p.2) := rfl

theorem splitOnChar_ne_nil (sep : Char) (s : Str) : splitOnChar sep s ≠ [] := by
  induction s with
  | nil => simp [splitOnChar]
  | cons c rest ih =>
    rw [splitOnChar_cons]
    split
    · simp
    · rcases h : splitOnChar sep rest with _ | ⟨t, ts⟩
      · exact absurd h ih
      · simp

theorem splitOnChar_no_sep {sep : Char} {s : Str} (h : sep ∉ s) :
    splitOnChar sep s = [s] := by
  induction s with
  | nil => rfl
  | cons c rest ih =>
    rw [splitOnChar_cons,
      if_neg fun hc : c = sep => h (List.mem_cons.mpr (Or.inl hc.symm))]
    rw [ih fun hm => h (List.mem_cons_of_mem c hm)]

theorem splitOnChar_append_sep {sep : Char} {a : Str} (r : Str) (h : sep ∉ a) :
    splitOnChar sep (a ++ sep :: r) = a :: splitOnChar sep r := by
  induction a with
  | nil => simp [splitOnChar_cons]
  | cons c t ih =>
    rw [List.cons_append, splitOnChar_cons,
      if_neg fun hc : c = sep => h (List.mem_cons.mpr (Or.inl hc.symm))]
    rw [ih fun hm => h (List.mem_cons_of_mem c hm)]

theorem splitOnChar_joinChar {sep : Char} {tokens : List Str}
    (hne : tokens ≠ []) (hsep : ∀ t ∈ tokens, sep ∉ t) :
    splitOnChar sep (joinChar sep tokens) = tokens := by
  induction tokens with
  | nil => exact absurd rfl hne
  | cons t ts ih =>
    cases ts with
    | nil => exact splitOnChar_no_sep (hsep t (List.mem_cons_self t []))
    | cons t2 ts2 =>
      show splitOnChar sep (t ++ sep :: joinChar sep (t2 :: ts2)) = _
      rw [splitOnChar_append_sep _ (hsep t (List.mem_cons_self _ _))]
      rw [ih (by simp) fun x hx => hsep x (List.mem_cons_of_mem t hx)]

theorem splitOnceChar_no_sep {sep : Char} {s : Str} (h : sep ∉ s) :
    splitOnceChar sep s = none := by
  induction s with
  | nil => rfl
  | cons c rest ih =>
    rw [splitOnceChar_cons,
      if_neg fun hc : c = sep => h (List.mem_cons.mpr (Or.inl hc.symm))]
    rw [ih fun hm => h (List.mem_cons_of_mem c hm)]
    rfl

theorem splitOnceChar_append_sep {sep : Char} {a : Str} (r : Str) (h : sep ∉ a) :
    splitOnceChar sep (a ++ sep :: r) = some (a, r) := by
  induction a with
  | nil => simp [splitOnceChar_cons]
  | cons c t ih =>
    rw [List.cons_append, splitOnceChar_cons,
      if_neg fun hc : c = sep => h (List.mem_cons.mpr (Or.inl hc.symm))]
    rw [ih fun hm => h (List.mem_cons_of_mem c hm)]
    rfl

theorem dropWhile_eq_self_of_none {p : Char → Bool} {s : Str}
    (h : ∀ c ∈ s, p c = false) : s.dropWhile p = s := by
  cases s with
  | nil => rfl
  | cons c rest =>
    have := h c (List.mem_cons_self c rest)
    simp [List.dropWhile_cons, this]

theorem trimStr_no_ws {s : Str} (h : ∀ c ∈ s, c.isWhitespace = false) :
    trimStr s = s := by
  unfold trimStr
  rw [dropWhile_eq_self_of_none h, dropWhile_eq_self_of_none, List.reverse_reverse]
  exact fun c hc => h c (List.mem_reverse.mp hc)

theorem mem_natChars_shape {n : Nat} {c : Char} (hc : c ∈ natChars n) :
    ∃ d, d < 10 ∧ c = dChar d := by
  rw [natChars_eq] at hc
  split at hc
  · rw [List.mem_singleton] at hc
    exact ⟨0, by norm_num, hc⟩
  · rcases List.mem_map.mp hc with ⟨d, hd, rfl⟩
    exact ⟨d, Nat.digits_lt_base (by norm_num) (List.mem_reverse.mp hd), rfl⟩

theorem mem_natChars_not_ws {n : Nat} {c : Char} (hc : c ∈ natChars n) :
    c.isWhitespace = false := by
  rcases mem_natChars_shape hc with ⟨d, hd, rfl⟩
  interval_cases d <;> rfl

theorem natChars_not_mem_nondigit {n : Nat} {c : Char} (hc : c.isDigit = false) :
    c ∉ natChars n := fun hm => by
  rw [mem_natChars_isDigit hm] at hc
  cases hc

theorem trimStr_natChars (n : Nat) : trimStr (natChars n) = natChars n :=
  trimStr_no_ws fun _ hc => mem_natChars_not_ws hc

theorem parse_subnet_ok {s : Str} {ipPart prefixPart : Str} {base prfx : Nat}
    (hsplit : splitOnChar '/' s = [ipPart, prefixPart])
    (hip : ipv4FromStr ipPart = some base)
    (hprfx : parseU32 prefixPart = some prfx)
    (hle : prfx ≤ 32) :
    parse_subnet s =
      .ok ((List.range (2 ^ (32 - prfx) % 4294967296)).map
        fun i => (base + i) % 4294967296) := by
  simp only [parse_subnet, hsplit, hip, hprfx]
  rw [if_neg (by omega)]

theorem range'_of_wrapping_map {base k : Nat} (_hk : k < 4294967296)
    (hno : base + k ≤ 4294967296) :
    (List.range k).map (fun i => (base + i) % 4294967296) = List.range' base k := by
  have h1 : (List.range k).map (fun i => (base + i) % 4294967296)
      = (List.range k).map (fun i => base + i) :=
    List.map_congr_left fun i hi =>
      Nat.mod_eq_of_lt (by have := List.mem_range.mp hi; omega)
  rw [h1, List.range_eq_range', List.map_add_range']
  norm_num

/-- C5 (amended): when the CIDR parses, the prefix is between 1 and 32,
and the enumeration does not run past the top of the IPv4 space,
`parse_subnet` returns exactly the 2^(32−N) addresses from the base
upward, in ascending order, network and broadcast included; N = 32
yields the single base address. -/
theorem parse_subnet_enumerates {s ipPart prefixPart : Str} {base prfx : Nat}
    (hsplit : splitOnChar '/' s = [ipPart, prefixPart])
    (hip : ipv4FromStr ipPart = some base)
    (hprfx : parseU32 prefixPart = some prfx)
    (h1 : 1 ≤ prfx) (hle : prfx ≤ 32)
    (hno : base + 2 ^ (32 - prfx) ≤ 4294967296) :
    parse_subnet s = .ok (List.range' base (2 ^ (32 - prfx))) ∧
    (List.range' base (2 ^ (32 - prfx))).Sorted (· < ·) ∧
    (List.range' base (2 ^ (32 - prfx))).length = 2 ^ (32 - prfx) ∧
    (List.range' base (2 ^ (32 - prfx))).head? = some base ∧
    base ∈ List.range' base (2 ^ (32 - prfx)) ∧
    base + (2 ^ (32 - prfx) - 1) ∈ List.range' base (2 ^ (32 - prfx)) ∧
    (prfx = 32 → parse_subnet s = .ok [base]) := by
  have hksmall : 2 ^ (32 - prfx) < 4294967296 := by
    calc 2 ^ (32 - prfx) ≤ 2 ^ 31 := Nat.pow_le_pow_right (by norm_num) (by omega)
    _ < 4294967296 := by norm_num
  have hkpos : 0 < 2 ^ (32 - prfx) := Nat.pos_pow_of_pos _ (by norm_num)
  have hok : parse_subnet s = .ok (List.range' base (2 ^ (32 - prfx))) := by
    rw [parse_subnet_ok hsplit hip hprfx hle, Nat.mod_eq_of_lt hksmall,
      range'_of_wrapping_map hksmall hno]
  refine ⟨hok, List.pairwise_lt_range' base (2 ^ (32 - prfx)), List.length_range' .., ?_, ?_, ?_, ?_⟩
  · cases hk : 2 ^ (32 - prfx) with
    | zero => omega
    | succ m => rw [List.range'_succ]; rfl
  · exact List.mem_range'_1.mpr ⟨Nat.le_refl _, by omega⟩
  · exact List.mem_range'_1.mpr ⟨Nat.le_add_right _ _, by omega⟩
  · intro h32
    subst h32
    simpa using hok

/-- Witness for `parse_subnet_enumerates` at the concrete CIDR
`10.0.0.0/30` (base 10.0.0.0 = 167772160, four addresses). -/
theorem parse_subnet_enumerates_witness :
    parse_subnet (str "10.0.0.0/30") = .ok (List.range' 167772160 4) :=
  (@parse_subnet_enumerates (str "10.0.0.0/30") (str "10.0.0.0") (str "30")
    167772160 30
    (by decide) (by decide) (by decide)
    (by norm_num) (by norm_num) (by norm_num)).1

set_option maxRecDepth 16384 in
/-- C5 counterexample: `255.255.255.255/24` is a well-formed CIDR with
0 ≤ N ≤ 32, yet the enumerated addresses wrap around to 0.0.0.0 and are
not in ascending order starting at the base address. -/
theorem parse_subnet_overflow_counterexample :
    (parse_subnet (str "255.255.255.255/24")).map (fun l => l.take 2) =
      .ok [4294967295, 0] ∧
    (parse_subnet (str "255.255.255.255/24")).map
      (fun l => decide (l.Sorted (· < ·))) = .ok false := by
  constructor
  · rfl
  · rfl

set_option maxRecDepth 16384 in
/-- C10: `parse_subnet` has no overflow guard — on `255.255.255.255/24`
it succeeds (no error is returned) and the unchecked `u32` addition
wraps, so the address 0 (= (2^32 − 1 + 1) mod 2^32) is enumerated even
though the base address is the all-ones address. -/
theorem parse_subnet_overflow_wraps :
    (parse_subnet (str "255.255.255.255/24")).isOk = true ∧
    (parse_subnet (str "255.255.255.255/24")).map (fun l => decide (0 ∈ l)) =
      .ok true ∧
    (parse_subnet (str "255.255.255.255/24")).map List.length = .ok 256 := by
  refine ⟨rfl, rfl, rfl⟩

theorem ping_fold_characterization (alive : Nat → Except Str Bool)
    (ips : List Nat) (r0 : PingSweepResult) :
    ips.foldl (pingStep alive) r0 =
      ⟨r0.live_hosts ++ ips.filter (fun ip => isLiveR (alive ip)),
       r0.not_alive_hosts ++ ips.filter (fun ip => isNotAliveR (alive ip)),
       r0.errors ++ ips.filterMap (fun ip => (errOfR (alive ip)).map ((ip, ·)))⟩ := by
  induction ips generalizing r0 with
  | nil => simp
  | cons ip rest ih =>
    rw [List.foldl_cons, ih]
    rcases r0 with ⟨l0, n0, e0⟩
    unfold pingStep
    rcases h : alive ip with e | b
    · simp [isLiveR, isNotAliveR, errOfR, h]
    · rcases b <;> simp [isLiveR, isNotAliveR, errOfR, h]

/-- C4: after `ping_sweep` over the expanded target set, every input
target appears in exactly one of `live_hosts`, `not_alive_hosts`,
`errors`, and everything in those three collections comes from the
input set (the collections partition the input targets). -/
theorem ping_sweep_partitions (alive : Nat → Except Str Bool) (subnet : Str)
    (ips : List Nat) (r : PingSweepResult)
    (hparse : parse_subnet subnet = .ok ips)
    (hrun : ping_sweep alive subnet = .ok r) :
    (∀ ip ∈ ips,
      (ip ∈ r.live_hosts ∧ ip ∉ r.not_alive_hosts ∧ ip ∉ r.errors.map Prod.fst) ∨
      (ip ∉ r.live_hosts ∧ ip ∈ r.not_alive_hosts ∧ ip ∉ r.errors.map Prod.fst) ∨
      (ip ∉ r.live_hosts ∧ ip ∉ r.not_alive_hosts ∧ ip ∈ r.errors.map Prod.fst)) ∧
    (∀ ip, ip ∈ r.live_hosts ∨ ip ∈ r.not_alive_hosts ∨ ip ∈ r.errors.map Prod.fst →
      ip ∈ ips) := by
  have hr : r = ⟨ips.filter (fun ip => isLiveR (alive ip)),
      ips.filter (fun ip => isNotAliveR (alive ip)),
      ips.filterMap (fun ip => (errOfR (alive ip)).map ((ip, ·)))⟩ := by
    unfold ping_sweep at hrun
    rw [hparse] at hrun
    have := ping_fold_characterization alive ips ⟨[], [], []⟩
    simp only [this] at hrun
    cases hrun
    simp
  subst hr
  have hmapfst : ∀ ip : Nat,
      ip ∈ (ips.filterMap (fun i => (errOfR (alive i)).map ((i, ·)))).map Prod.fst ↔
        ip ∈ ips ∧ (errOfR (alive ip)).isSome := by
    intro ip
    simp only [List.mem_map, List.mem_filterMap]
    constructor
    · rintro ⟨⟨i, e⟩, ⟨a, ha, hfa⟩, rfl⟩
      rcases hopt : errOfR (alive a) with _ | v
      · rw [hopt] at hfa; cases hfa
      · rw [hopt] at hfa
        cases hfa
        exact ⟨ha, by rw [hopt]; rfl⟩
    · rintro ⟨hip, hsome⟩
      rcases hopt : errOfR (alive ip) with _ | v
      · rw [hopt] at hsome; cases hsome
      · exact ⟨(ip, v), ⟨ip, hip, by rw [hopt]; rfl⟩, rfl⟩
  constructor
  · intro ip hip
    rcases h : alive ip with e | b
    · refine Or.inr (Or.inr ⟨?_, ?_, ?_⟩)
      · simp [List.mem_filter, isLiveR, h]
      · simp [List.mem_filter, isNotAliveR, h]
      · exact (hmapfst ip).mpr ⟨hip, by simp [errOfR, h]⟩
    · cases b
      · refine Or.inr (Or.inl ⟨?_, ?_, ?_⟩)
        · simp [List.mem_filter, isLiveR, h]
        · exact List.mem_filter.mpr ⟨hip, by simp [isNotAliveR, h]⟩
        · intro hmem
          have := ((hmapfst ip).mp hmem).2
          simp [errOfR, h] at this
      · refine Or.inl ⟨?_, ?_, ?_⟩
        · exact List.mem_filter.mpr ⟨hip, by simp [isLiveR, h]⟩
        · simp [List.mem_filter, isNotAliveR, h]
        · intro hmem
          have := ((hmapfst ip).mp hmem).2
          simp [errOfR, h] at this
  · intro ip hmem
    rcases hmem with hm | hm | hm
    · exact (List.mem_filter.mp hm).1
    · exact (List.mem_filter.mp hm).1
    · exact ((hmapfst ip).mp hm).1

/-- Witness for `ping_sweep_partitions`: the subnet `10.0.0.0/31` with a
concrete oracle declaring 10.0.0.0 live and 10.0.0.1 erroring. -/
theorem ping_sweep_partitions_witness :
    (∀ ip ∈ [167772160, 167772161],
      (ip ∈ (PingSweepResult.mk [167772160] [] [(167772161, str "boom")]).live_hosts ∧
        ip ∉ (PingSweepResult.mk [167772160] [] [(167772161, str "boom")]).not_alive_hosts ∧
        ip ∉ ((PingSweepResult.mk [167772160] [] [(167772161, str "boom")]).errors.map Prod.fst)) ∨
      (ip ∉ (PingSweepResult.mk [167772160] [] [(167772161, str "boom")]).live_hosts ∧
        ip ∈ (PingSweepResult.mk [167772160] [] [(167772161, str "boom")]).not_alive_hosts ∧
        ip ∉ ((PingSweepResult.mk [167772160] [] [(167772161, str "boom")]).errors.map Prod.fst)) ∨
      (ip ∉ (PingSweepResult.mk [167772160] [] [(167772161, str "boom")]).live_hosts ∧
        ip ∉ (PingSweepResult.mk [167772160] [] [(167772161, str "boom")]).not_alive_hosts ∧
        ip ∈ ((PingSweepResult.mk [167772160] [] [(167772161, str "boom")]).errors.map Prod.fst))) ∧
    (∀ ip, ip ∈ (PingSweepResult.mk [167772160] [] [(167772161, str "boom")]).live_hosts ∨
        ip ∈ (PingSweepResult.mk [167772160] [] [(167772161, str "boom")]).not_alive_hosts ∨
        ip ∈ ((PingSweepResult.mk [167772160] [] [(167772161, str "boom")]).errors.map Prod.fst) →
      ip ∈ [167772160, 167772161]) :=
  ping_sweep_partitions
    (fun ip => if ip = 167772160 then .ok true else .error (str "boom"))
    (str "10.0.0.0/31") [167772160, 167772161]
    (PingSweepResult.mk [167772160] [] [(167772161, str "boom")])
    rfl rfl

theorem tcp_fold_characterization (net : Nat → Nat → TcpConnectOutcome)
    (ip : Nat) (ports : List Nat) (r0 : TcpScanResult) :
    ports.foldl (fun r port =>
      match tcpProbe (net ip port) ip port with
      | .ok v => { r with open_ports := r.open_ports ++ [v] }
      | .error e => { r with errors := r.errors ++ [(ip, e)] }) r0 =
    ⟨r0.open_ports ++
        (ports.filter fun p => net ip p = .success).map (fun p => (ip, p)),
      r0.errors ++
        ports.filterMap fun p => (tcpErrOf (net ip p) ip p).map ((ip, ·))⟩ := by
  induction ports generalizing r0 with
  | nil => simp
  | cons p rest ih =>
    rw [List.foldl_cons, ih]
    rcases r0 with ⟨o0, e0⟩
    rcases h : net ip p with _ | m
    · simp [tcpProbe, tcpErrOf, h]
    · simp [tcpProbe, tcpErrOf, h]
    · simp [tcpProbe, tcpErrOf, h]

theorem udp_fold_characterization (net : Nat → Nat → UdpProbeOutcome)
    (ip : Nat) (ports : List Nat) (r0 : UdpScanResult) :
    ports.foldl (fun r port =>
      match udpProbe (net ip port) ip port with
      | .ok v => { r with open_ports := r.open_ports ++ [v] }
      | .error e => { r with errors := r.errors ++ [(ip, e)] }) r0 =
    ⟨r0.open_ports ++
        (ports.filter fun p => net ip p = .reply).map (fun p => (ip, p)),
      r0.errors ++
        ports.filterMap fun p => (udpErrOf (net ip p) ip p).map ((ip, ·))⟩ := by
  induction ports generalizing r0 with
  | nil => simp
  | cons p rest ih =>
    rw [List.foldl_cons, ih]
    rcases r0 with ⟨o0, e0⟩
    rcases h : net ip p with _ | _ | m | m | m
    all_goals simp [udpProbe, udpInner, udpErrOf, h]

/-- C3 (amended): in both port scans every non-open probe outcome —
including TCP connect timeouts, refused/unreachable connects, and UDP
receive timeouts — produces an entry in `errors`; `open` holds exactly
the successful probes.  There is no silent negative category. -/
theorem scan_classification (tnet : Nat → Nat → TcpConnectOutcome)
    (unet : Nat → Nat → UdpProbeOutcome) (ip : Nat) (ports : List Nat) :
    scan_ports tnet ip ports =
      ⟨(ports.filter fun p => tnet ip p = .success).map (fun p => (ip, p)),
        ports.filterMap fun p => (tcpErrOf (tnet ip p) ip p).map ((ip, ·))⟩ ∧
    scan_udp_ports unet ip ports =
      ⟨(ports.filter fun p => unet ip p = .reply).map (fun p => (ip, p)),
        ports.filterMap fun p => (udpErrOf (unet ip p) ip p).map ((ip, ·))⟩ ∧
    (∀ p o, (tcpErrOf o ip p).isSome = (o ≠ .success : Bool)) ∧
    (∀ p o, (udpErrOf o ip p).isSome = (o ≠ .reply : Bool)) := by
  refine ⟨?_, ?_, ?_, ?_⟩
  · rw [scan_ports, tcp_fold_characterization]
    rfl
  · rw [scan_udp_ports, udp_fold_characterization]
    rfl
  · intro p o
    rcases o with _ | m <;> simp [tcpErrOf, tcpProbe]
  · intro p o
    rcases o with _ | _ | m | m | m <;> simp [udpErrOf, udpProbe, udpInner]

/-- C3 counterexample: a timed-out TCP connect to 10.0.0.1:22, a refused
TCP connect, and a UDP receive timeout on port 53 each yield an `errors`
entry for the probed pair — not the silent negative the claim requires. -/
theorem scan_negative_counterexample :
    scan_ports (fun _ _ => .timeout) 167772161 [22] =
      ⟨[], [(167772161, str "Timeout connecting to 10.0.0.1:22")]⟩ ∧
    scan_ports (fun _ _ => .failure (str "Connection refused (os error 111)"))
        167772161 [22] =
      ⟨[], [(167772161,
        str "Error connecting to 10.0.0.1:22 - Connection refused (os error 111)")]⟩ ∧
    scan_udp_ports (fun _ _ => .noResponse) 167772161 [53] =
      ⟨[], [(167772161, str "Error on 10.0.0.1:53 - No response")]⟩ := by
  refine ⟨rfl, rfl, rfl⟩

/- ### Round-trip and range facts for the port list -/

theorem dedupAdj_sorted_lt : ∀ {l : List Nat}, List.Sorted (· < ·) l → dedupAdj l = l
  | [], _ => rfl
  | [_], _ => rfl
  | a :: b :: rest, h => by
    have hab : a < b := (List.sorted_cons.mp h).1 b (List.mem_cons_self b rest)
    rw [dedupAdj, if_neg (Nat.ne_of_lt hab)]
    rw [dedupAdj_sorted_lt (List.sorted_cons.mp h).2]

theorem dedupAdj_sublist : ∀ l : List Nat, List.Sublist (dedupAdj l) l
  | [] => List.Sublist.refl []
  | [a] => List.Sublist.refl [a]
  | a :: b :: rest => by
    rw [dedupAdj]
    split
    · exact (dedupAdj_sublist (b :: rest)).cons a
    · exact (dedupAdj_sublist (b :: rest)).cons₂ a

theorem parse_ports_sorted (s : Str) : List.Sorted (· ≤ ·) (parse_ports s) :=
  List.Pairwise.sublist (dedupAdj_sublist _)
    (List.sorted_insertionSort (· ≤ ·) ((splitOnChar ',' s).flatMap parsePart))

theorem getLastD_mem (p : Nat) : ∀ rest : List Nat, List.getLastD rest p ∈ p :: rest
  | [] => List.mem_cons_self p []
  | q :: rest' => by
    rw [List.getLastD_cons]
    exact List.mem_cons_of_mem p (getLastD_mem q rest')

theorem sorted_le_getLastD : ∀ {p : Nat} {rest : List Nat},
    List.Sorted (· ≤ ·) (p :: rest) → ∀ x ∈ p :: rest, x ≤ List.getLastD rest p
  | p, [], _, x, hx => by
    rw [List.mem_singleton] at hx
    subst hx
    exact le_rfl
  | p, q :: rest', h, x, hx => by
    have htail : List.Sorted (· ≤ ·) (q :: rest') := (List.sorted_cons.mp h).2
    rw [List.getLastD_cons]
    rcases List.mem_cons.mp hx with rfl | hx'
    · exact le_trans ((List.sorted_cons.mp h).1 q (List.mem_cons_self q rest'))
        (sorted_le_getLastD htail q (List.mem_cons_self q rest'))
    · exact sorted_le_getLastD htail x hx'

theorem dash_not_mem_natChars (n : Nat) : '-' ∉ natChars n :=
  natChars_not_mem_nondigit rfl

theorem comma_not_mem_natChars (n : Nat) : ',' ∉ natChars n :=
  natChars_not_mem_nondigit rfl

theorem comma_not_mem_rangeToken (s e : Nat) : ',' ∉ rangeToken s e := by
  unfold rangeToken
  split
  · exact comma_not_mem_natChars s
  · intro h
    rcases List.mem_append.mp h with h | h
    · exact comma_not_mem_natChars s h
    · rcases List.mem_cons.mp h with h | h
      · exact absurd h (by decide)
      · exact comma_not_mem_natChars e h

theorem parseU16_trim_natChars {n : Nat} (h : n < 65536) :
    parseU16 (trimStr (natChars n)) = some n := by
  rw [trimStr_natChars, parseU16_natChars h]

theorem parsePart_rangeToken {s e : Nat} (hse : s ≤ e) (he : e < 65536) :
    parsePart (rangeToken s e) = List.range' s (e + 1 - s) := by
  by_cases hs : s = e
  · subst hs
    rw [rangeToken, if_pos rfl]
    simp only [parsePart, splitOnceChar_no_sep (dash_not_mem_natChars s),
      parseU16_trim_natChars he]
    have h1 : s + 1 - s = 1 := by omega
    rw [h1, List.range'_one]
  · rw [rangeToken, if_neg hs]
    simp only [parsePart, splitOnceChar_append_sep _ (dash_not_mem_natChars s),
      parseU16_trim_natChars (show s < 65536 by omega), parseU16_trim_natChars he]

theorem fprTokens_ne_nil (start e : Nat) (rest : List Nat) :
    fprTokens start e rest ≠ [] := by
  induction rest generalizing start e with
  | nil => simp [fprTokens]
  | cons p rest' ih =>
    rw [fprTokens]
    split
    · exact ih start p
    · simp

theorem mem_fprTokens_no_comma : ∀ (rest : List Nat) (start e : Nat),
    ∀ tok ∈ fprTokens start e rest, ',' ∉ tok
  | [], start, e, tok, htok => by
    rw [fprTokens, List.mem_singleton] at htok
    subst htok
    exact comma_not_mem_rangeToken start e
  | p :: rest', start, e, tok, htok => by
    rw [fprTokens] at htok
    split at htok
    · exact mem_fprTokens_no_comma rest' start p tok htok
    · rcases List.mem_cons.mp htok with rfl | h
      · exact comma_not_mem_rangeToken start e
      · exact mem_fprTokens_no_comma rest' p p tok h

theorem fprTokens_flatMap_parse : ∀ (rest : List Nat) (start e : Nat),
    start ≤ e → e < 65536 → (∀ x ∈ rest, x < 65536) →
    List.Chain (· < ·) e rest →
    (fprTokens start e rest).flatMap parsePart =
      List.range' start (e + 1 - start) ++ rest
  | [], start, e, hse, he, _, _ => by
    rw [fprTokens]
    simp [parsePart_rangeToken hse he]
  | p :: rest', start, e, hse, he, hb, hch => by
    have hep : e < p := (List.chain_cons.mp hch).1
    have hch' : List.Chain (· < ·) p rest' := (List.chain_cons.mp hch).2
    have hp : p < 65536 := hb p (List.mem_cons_self p rest')
    have hb' : ∀ x ∈ rest', x < 65536 := fun x hx => hb x (List.mem_cons_of_mem p hx)
    rw [fprTokens]
    split
    · rename_i hpe
      rw [fprTokens_flatMap_parse rest' start p (by omega) hp hb' hch']
      subst hpe
      have h1 : e + 1 + 1 - start = (e + 1 - start) + 1 := by omega
      rw [h1, List.range'_concat]
      have h2 : start + 1 * (e + 1 - start) = e + 1 := by omega
      rw [h2, List.append_assoc]
      rfl
    · rw [List.flatMap_cons, parsePart_rangeToken hse he,
        fprTokens_flatMap_parse rest' p p le_rfl hp hb' hch']
      have h1 : p + 1 - p = 1 := by omega
      rw [h1, List.range'_one]
      rfl

/-- C7: for every sorted, duplicate-free list of u16 ports, compacting
it with `format_port_ranges` and re-expanding the string with the CLI
parser `parse_ports` returns exactly the original list. -/
theorem format_parse_roundtrip (ports : List Nat)
    (hs : List.Sorted (· < ·) ports) (hb : ∀ p ∈ ports, p < 65536) :
    parse_ports (format_port_ranges ports) = ports := by
  cases ports with
  | nil => rfl
  | cons p rest =>
    have hp : p < 65536 := hb p (List.mem_cons_self p rest)
    have hb' : ∀ x ∈ rest, x < 65536 := fun x hx => hb x (List.mem_cons_of_mem p hx)
    have hchain : List.Chain (· < ·) p rest := List.chain_iff_pairwise.mpr hs
    have hle : List.Sorted (· ≤ ·) (p :: rest) := hs.imp Nat.le_of_lt
    rw [format_port_ranges, parse_ports,
      splitOnChar_joinChar (fprTokens_ne_nil p p rest) (mem_fprTokens_no_comma rest p p),
      fprTokens_flatMap_parse rest p p le_rfl hp hb' hchain]
    have h1 : p + 1 - p = 1 := by omega
    rw [h1, List.range'_one]
    show dedupAdj (List.insertionSort (· ≤ ·) (p :: rest)) = p :: rest
    rw [List.Sorted.insertionSort_eq hle, dedupAdj_sorted_lt hs]

/-- Witness for `format_parse_roundtrip` at the concrete sorted,
deduplicated list `[1, 2, 3, 7, 9, 10, 65535]`. -/
theorem format_parse_roundtrip_witness :
    List.Sorted (· < ·) [1, 2, 3, 7, 9, 10, 65535] ∧
    parse_ports (format_port_ranges [1, 2, 3, 7, 9, 10, 65535]) =
      [1, 2, 3, 7, 9, 10, 65535] :=
  ⟨by decide, format_parse_roundtrip _ (by decide) (by decide)⟩

/-- C9 (amended): when the parsed port list is non-empty and its largest
element is below 65535, the TCP/UDP stage probes exactly the contiguous
ports from the smallest to the largest requested port inclusive — in
particular every port in between, requested or not, and every requested
port. -/
theorem driver_scan_range_contiguous (s : Str) (p : Nat) (rest : List Nat)
    (hparse : parse_ports s = p :: rest)
    (hmax : List.getLastD rest p < 65535) :
    (∀ q, q ∈ driver_scan_range (p :: rest) ↔
      p ≤ q ∧ q ≤ List.getLastD rest p) ∧
    (∀ x ∈ p :: rest, x ∈ driver_scan_range (p :: rest)) := by
  have hsorted : List.Sorted (· ≤ ·) (p :: rest) := by
    have := parse_ports_sorted s
    rw [hparse] at this
    exact this
  have hple : p ≤ List.getLastD rest p :=
    sorted_le_getLastD hsorted p (List.mem_cons_self p rest)
  have hmod : (List.getLastD rest p + 1) % 65536 = List.getLastD rest p + 1 :=
    Nat.mod_eq_of_lt (by omega)
  constructor
  · intro q
    rw [driver_scan_range, hmod, List.mem_range'_1]
    omega
  · intro x hx
    rw [driver_scan_range, hmod, List.mem_range'_1]
    have hxle : x ≤ List.getLastD rest p := sorted_le_getLastD hsorted x hx
    have hpx : p ≤ x := by
      rcases List.mem_cons.mp hx with rfl | hx'
      · exact le_rfl
      · exact (List.sorted_cons.mp hsorted).1 x hx'
    omega

/-- Witness for `driver_scan_range_contiguous`: `--ports 22,80` probes
every port from 22 through 80. -/
theorem driver_scan_range_contiguous_witness :
    parse_ports (str "22,80") = [22, 80] ∧
    (∀ q, q ∈ driver_scan_range [22, 80] ↔ 22 ≤ q ∧ q ≤ List.getLastD [80] 22) ∧
    (∀ x ∈ [22, 80], x ∈ driver_scan_range [22, 80]) :=
  ⟨by decide, driver_scan_range_contiguous (str "22,80") 22 [80] (by decide) (by decide)⟩

/-- C9 counterexample: with parsed port list `[65535]` (from
`--ports 65535`) the `u16` computation `max_port + 1` wraps to 0, the
stage range `65535..0` is empty, and the requested port 65535 itself is
never probed. -/
theorem driver_scan_range_counterexample :
    parse_ports (str "65535") = [65535] ∧
    driver_scan_range (parse_ports (str "65535")) = [] := by
  refine ⟨by decide, by decide⟩

theorem bannerArm_failed {read : Option Str} {accept : Str → Bool}
    {name errMsg : Str} {es fs : List Str}
    (h : bannerArm read accept name errMsg = .failed es fs) :
    es = [errMsg] ∧ fs = [name] := by
  rcases read with _ | b
  · simp only [bannerArm] at h
    cases h
    exact ⟨rfl, rfl⟩
  · simp only [bannerArm] at h
    split at h
    · cases h
    · cases h
      exact ⟨rfl, rfl⟩

theorem sshArm_failed {env : HostNet} {es fs : List Str}
    (h : sshArm env = .failed es fs) : fs = [] := by
  unfold sshArm at h
  split at h
  · split at h
    · cases h
    · split at h
      · cases h
      · cases h; rfl
  · cases h; rfl

theorem dnsArm_failed {env : HostNet} {es fs : List Str}
    (h : dnsArm env = .failed es fs) : fs = [str "DNS"] := by
  unfold dnsArm at h
  split at h
  · split at h
    · cases h
    · cases h; rfl
  · cases h; rfl

theorem probeArm_failed_fails {env : HostNet} {proto : Protocol}
    {es fs : List Str} (h : probeArm env proto = .failed es fs) :
    fs = if proto = Protocol.Ssh then [] else [protoName proto] := by
  cases proto
  · exact (if_pos rfl) ▸ sshArm_failed h
  all_goals
    rw [if_neg (by intro hc; cases hc)]
  · exact (bannerArm_failed h).2
  · exact (bannerArm_failed h).2
  · exact (bannerArm_failed h).2
  · exact (bannerArm_failed h).2
  · exact dnsArm_failed h
  · exact (bannerArm_failed h).2
  · exact (bannerArm_failed h).2
  · exact (bannerArm_failed h).2

theorem detectLoop_service_error : ∀ (protos : List Protocol) (env : HostNet)
    (port : Nat) (errors fails : List Str),
    (detectLoop env port protos errors fails).service.isSome = true ∧
    ((detectLoop env port protos errors fails).error.isSome = true →
      (detectLoop env port protos errors fails).service = some (str "Unknown Service"))
  | [], env, port, errors, fails => by
    rcases h : genericBanner env with _ | t
    · simp [detectLoop, h, detectFallback]
    · simp [detectLoop, h]
  | proto :: rest, env, port, errors, fails => by
    rcases h : probeArm env proto with name | ⟨es, fs⟩
    · simp [detectLoop, h]
    · simp only [detectLoop, h]
      exact detectLoop_service_error rest env port (errors ++ es) (fails ++ fs)

/-- C1 (amended): `service` is always set, and whenever `error` is
non-null the result is the "Unknown Service" fallback — equivalently, a
positive identification always carries a null `error`.  (A null `error`
does not force `protocol_failures` to be empty: see the counterexample.) -/
theorem detect_service_invariant (env : HostNet) (port : Nat)
    (protocols : List Protocol) :
    (detect_service env port protocols).service.isSome = true ∧
    ((detect_service env port protocols).error.isSome = true →
      (detect_service env port protocols).service = some (str "Unknown Service")) :=
  detectLoop_service_error protocols env port [] []

/-- Witness for `detect_service_invariant`: nothing listens on the port,
SSH and HTTP requested. -/
theorem detect_service_invariant_witness :
    (detect_service ⟨false, none, none, none, false, none, false, none⟩ 9999
      [Protocol.Ssh, Protocol.Http]).service.isSome = true ∧
    ((detect_service ⟨false, none, none, none, false, none, false, none⟩ 9999
      [Protocol.Ssh, Protocol.Http]).error.isSome = true →
      (detect_service ⟨false, none, none, none, false, none, false, none⟩ 9999
        [Protocol.Ssh, Protocol.Http]).service = some (str "Unknown Service")) :=
  detect_service_invariant ⟨false, none, none, none, false, none, false, none⟩
    9999 [Protocol.Ssh, Protocol.Http]

/-- C1 counterexample: FTP requested against a listener answering
`hello`: the FTP probe fails (pushing "FTP" onto `protocol_failures`),
then the generic banner read identifies `Banner: hello` with
`error = None` — so `error` null with `protocol_failures` non-empty. -/
theorem error_null_failures_nonempty_counterexample :
    (detect_service ⟨true, some (str "hello"), none, none, false, none, false, none⟩
        2222 [Protocol.Ftp]).error = none ∧
    (detect_service ⟨true, some (str "hello"), none, none, false, none, false, none⟩
        2222 [Protocol.Ftp]).protocol_failures = [str "FTP"] :=
  ⟨by decide, by decide⟩

theorem detectLoop_failures : ∀ (protos : List Protocol) (env : HostNet)
    (port : Nat) (errors fails : List Str),
    (detectLoop env port protos errors fails).protocol_failures =
      fails ++ ((protos.takeWhile fun pr => !(armIdentifies env pr)).filter
        fun pr => decide (pr ≠ Protocol.Ssh)).map protoName
  | [], env, port, errors, fails => by
    rcases h : genericBanner env with _ | t
    · simp [detectLoop, h, detectFallback]
    · simp [detectLoop, h]
  | proto :: rest, env, port, errors, fails => by
    rcases h : probeArm env proto with name | ⟨es, fs⟩
    · have hid : armIdentifies env proto = true := by rw [armIdentifies, h]
      simp [detectLoop, h, List.takeWhile_cons, hid]
    · have hid : armIdentifies env proto = false := by rw [armIdentifies, h]
      simp only [detectLoop, h]
      rw [detectLoop_failures rest env port (errors ++ es) (fails ++ fs)]
      rw [List.takeWhile_cons, hid]
      by_cases hssh : proto = Protocol.Ssh
      · subst hssh
        have hfs : fs = [] := sshArm_failed h
        subst hfs
        simp [List.filter_cons]
      · have hfs : fs = [protoName proto] := by
          have := probeArm_failed_fails h
          rwa [if_neg hssh] at this
        subst hfs
        simp [List.filter_cons, hssh]

/-- C2 (amended): `protocol_failures` holds the names of exactly the
probes attempted before the first success that completed without
identifying the service — except SSH, whose failure is never recorded
(its `protocol_failures.push` is commented out in the source). -/
theorem detect_service_failures (env : HostNet) (port : Nat)
    (protocols : List Protocol) :
    (detect_service env port protocols).protocol_failures =
      ((protocols.takeWhile fun pr => !(armIdentifies env pr)).filter
        fun pr => decide (pr ≠ Protocol.Ssh)).map protoName := by
  rw [detect_service, detectLoop_failures]
  rfl

/-- C2 counterexample: only SSH requested against a listener answering
`hello world\n` — per the claim (and spec scenario 3) the result should
have `protocol_failures = {SSH}`, but the code leaves it empty. -/
theorem ssh_failure_unrecorded_counterexample :
    detect_service
        ⟨true, some (str "hello world\n"), none, none, false, none, false, none⟩
        22 [Protocol.Ssh] =
      ⟨22, some (str "Banner: hello world"), none, []⟩ := by
  decide

theorem detectLoop_port : ∀ (protos : List Protocol) (env : HostNet)
    (port : Nat) (errors fails : List Str),
    (detectLoop env port protos errors fails).port = port
  | [], env, port, errors, fails => by
    rcases h : genericBanner env with _ | t
    · simp [detectLoop, h, detectFallback]
    · simp [detectLoop, h]
  | proto :: rest, env, port, errors, fails => by
    rcases h : probeArm env proto with name | ⟨es, fs⟩
    · simp [detectLoop, h]
    · simp only [detectLoop, h]
      exact detectLoop_port rest env port (errors ++ es) (fails ++ fs)

/-- C8: `service_scan` with a user port list probes exactly the sorted,
duplicate-free union of the user's ports with the default ports 0..=1024
(one `ServiceDetectionResult` per port of that union, in that order);
the defaults are always included, so user ports are never probed alone. -/
theorem service_scan_merged_ports (env : Nat → HostNet) (user : List Nat)
    (protos : List Protocol) :
    (service_scan env (some user) protos).map ServiceDetectionResult.port =
      merged_ports (some user) ∧
    List.Sorted (· < ·) (merged_ports (some user)) ∧
    (∀ p, p ∈ merged_ports (some user) ↔ p ≤ 1024 ∨ p ∈ user) := by
  refine ⟨?_, ?_, ?_⟩
  · rw [service_scan, List.map_map]
    have hcongr : ∀ p ∈ merged_ports (some user),
        (ServiceDetectionResult.port ∘
          fun port => detect_service (env port) port protos) p = p :=
      fun p _ => detectLoop_port protos (env p) p [] []
    rw [List.map_congr_left hcongr]
    simp
  · have hnd : (merged_ports (some user)).Nodup :=
      (List.perm_insertionSort (· ≤ ·) _).nodup_iff.mpr (List.nodup_dedup _)
    exact (List.sorted_insertionSort (· ≤ ·) _).lt_of_le hnd
  · intro p
    rw [merged_ports, (List.perm_insertionSort (· ≤ ·) _).mem_iff,
      List.mem_dedup, List.mem_append]
    have h1 : p ∈ default_ports ↔ p ≤ 1024 := by
      rw [default_ports, List.mem_range]
      omega
    rw [h1]
    rfl

/-- C6 (amended): the `os` field is not derived from any TTL table — no
such table exists and the reply TTL is never captured.  `os` is a
function of the SSH banner alone: the `OpenSSH_`-token rule of
`osFromSshBanner` when an SSH banner was read, `None` otherwise; the
whole fingerprint is invariant under the reply TTL. -/
theorem fingerprint_host_os (ip : Nat) (env : FpEnv) :
    (fingerprint_host ip env).os =
      (match fingerprint_ssh env with
       | some banner => osFromSshBanner banner
       | none => none) ∧
    (∀ t, fingerprint_host ip { env with icmpTtl := t } = fingerprint_host ip env) := by
  constructor
  · have hStack : ∀ r, (fpStackStep env r).os = r.os := by
      intro r
      unfold fpStackStep
      split <;> rfl
    have hMac : ∀ r, (fpMacStep env r).os = r.os := by
      intro r
      unfold fpMacStep
      split <;> rfl
    have hNb : ∀ r, (fpNetbiosStep env r).os = r.os := by
      intro r
      unfold fpNetbiosStep
      split <;> rfl
    have hSnmp : ∀ r, (fpSnmpStep env r).os = r.os := by
      intro r
      unfold fpSnmpStep
      split <;> rfl
    have hHttp : ∀ r, (fpHttpStep env r).os = r.os := by
      intro r
      unfold fpHttpStep
      split <;> rfl
    rw [fingerprint_host, hStack, hMac, hNb, hSnmp, hHttp]
    unfold fpSshStep
    split <;> simp_all
  · intro t
    rfl

/-- Witness for `fingerprint_host_os`: host answering only an OpenSSH
banner with a version-and-platform token pair. -/
theorem fingerprint_host_os_witness :
    (fingerprint_host 3232235777
      ⟨some 64, some (str "SSH-2.0-OpenSSH_8.2p1 Ubuntu-4ubuntu0.5"),
        none, none, none, none, none⟩).os =
      (match fingerprint_ssh
        ⟨some 64, some (str "SSH-2.0-OpenSSH_8.2p1 Ubuntu-4ubuntu0.5"),
          none, none, none, none, none⟩ with
       | some banner => osFromSshBanner banner
       | none => none) ∧
    (∀ t, fingerprint_host 3232235777
        ⟨t, some (str "SSH-2.0-OpenSSH_8.2p1 Ubuntu-4ubuntu0.5"),
          none, none, none, none, none⟩ =
      fingerprint_host 3232235777
        ⟨some 64, some (str "SSH-2.0-OpenSSH_8.2p1 Ubuntu-4ubuntu0.5"),
          none, none, none, none, none⟩) :=
  fingerprint_host_os 3232235777
    ⟨some 64, some (str "SSH-2.0-OpenSSH_8.2p1 Ubuntu-4ubuntu0.5"),
      none, none, none, none, none⟩

/-- C6 counterexample: a live host replying with TTL 64 and SSH banner
`SSH-2.0-OpenSSH_7.6p1`.  The claim requires `os = "Linux/Unix"`; the
code sets `os` to the whitespace token after the OpenSSH token — here the
empty string. -/
theorem fingerprint_os_ttl_counterexample :
    (fingerprint_host 3232235777
      ⟨some 64, some (str "SSH-2.0-OpenSSH_7.6p1"),
        none, none, none, none, none⟩).os = some (str "") ∧
    (fingerprint_host 3232235777
      ⟨some 64, some (str "SSH-2.0-OpenSSH_7.6p1"),
        none, none, none, none, none⟩).os ≠ some (str "Linux/Unix") ∧
    (fingerprint_host 3232235777
      ⟨some 64, some (str "SSH-2.0-OpenSSH_7.6p1"),
        none, none, none, none, none⟩).details =
      some (str "SSH: SSH-2.0-OpenSSH_7.6p1") :=
  ⟨by decide, by decide, by decide⟩

end NetScan
